import Mathlib

/-!
# Azure blob mover (`datamover/pkg/azure/blob/blobmover.go`)

A shallow embedding of the block-ID codec, the multipart-upload session and the
download read loop of `BlobMover`, followed by the properties established for
them.

Conventions of the embedding:
* a Go `[]byte` is a `List Nat` whose entries are below 256;
* a Go `string` holding a block ID is a Lean `String`;
* a Go `error` is `Option GoError`, `none` being `nil`;
* a Go runtime panic is the `none` of an `Option` result;
* machine integers are `Nat`/`Int` with the wrap-around written out.
-/

set_option linter.unusedVariables false

namespace blobmover

/-! ## Errors -/

/-- Go `error` values: the sentinel `io.EOF`, and any other error with its text. -/
inductive GoError where
  | EOF
  | other (msg : String)
  deriving DecidableEq, Repr

/-! ## `encoding/binary`: little-endian 64-bit words -/

/-- Go conversion `byte(x)`: keep the low eight bits. -/
def toByte (x : Nat) : Nat := x % 256

/-- Go conversion `uint64(x)` of an `int64`: the two's-complement bit pattern. -/
def toUint64 (x : Int) : Nat := (x % 2 ^ 64).toNat

/-- Go conversion `int64(x)` of a `uint64`: the two's-complement reading. -/
def toInt64 (x : Nat) : Int :=
  if x % 2 ^ 64 < 2 ^ 63 then ((x % 2 ^ 64 : Nat) : Int) else ((x % 2 ^ 64 : Nat) : Int) - 2 ^ 64

/-- `binary.LittleEndian.PutUint64(buf, v)` on a fresh 8-byte buffer. -/
def PutUint64 (v : Nat) : List Nat :=
  [toByte v, toByte (v >>> 8), toByte (v >>> 16), toByte (v >>> 24),
   toByte (v >>> 32), toByte (v >>> 40), toByte (v >>> 48), toByte (v >>> 56)]

/-- `binary.LittleEndian.Uint64(b)`: panics (`none`) when `b` has fewer than
eight bytes (the bounds check `_ = b[7]`), otherwise reads the first eight. -/
def Uint64 : List Nat → Option Nat
  | b0 :: b1 :: b2 :: b3 :: b4 :: b5 :: b6 :: b7 :: _ =>
    some (b0 ||| b1 <<< 8 ||| b2 <<< 16 ||| b3 <<< 24 |||
          b4 <<< 32 ||| b5 <<< 40 ||| b6 <<< 48 ||| b7 <<< 56)
  | _ => none

/-! ## `encoding/base64`: `StdEncoding` -/

/-- The alphabet of `base64.StdEncoding`. -/
def encodeStd : List Char :=
  "ABCDEFGHIJKLMNOPQRSTUVWXYZabcdefghijklmnopqrstuvwxyz0123456789+/".data

/-- The padding character of `base64.StdEncoding`. -/
def padChar : Char := '='

/-- Table lookup `enc.encode[v]`; every call site masks `v` with `0x3F`. -/
def encodeChar (v : Nat) : Char := encodeStd.getD v 'A'

/-- Entry `enc.decodeMap[c]`: the position of `c` in the alphabet, `none`
standing for the table's `0xff`. -/
def decodeMap (c : Char) : Option Nat :=
  let i := encodeStd.indexOf c
  if i < 64 then some i else none

/-- `(*Encoding).Encode` for `StdEncoding`: three bytes become four characters,
a final group of one or two bytes is padded with `=`. -/
def Encode : List Nat → List Char
  | b0 :: b1 :: b2 :: rest =>
    let val := b0 <<< 16 ||| b1 <<< 8 ||| b2
    encodeChar (val >>> 18 &&& 0x3F) :: encodeChar (val >>> 12 &&& 0x3F) ::
      encodeChar (val >>> 6 &&& 0x3F) :: encodeChar (val &&& 0x3F) :: Encode rest
  | [b0, b1] =>
    let val := b0 <<< 16 ||| b1 <<< 8
    [encodeChar (val >>> 18 &&& 0x3F), encodeChar (val >>> 12 &&& 0x3F),
     encodeChar (val >>> 6 &&& 0x3F), padChar]
  | [b0] =>
    let val := b0 <<< 16
    [encodeChar (val >>> 18 &&& 0x3F), encodeChar (val >>> 12 &&& 0x3F), padChar, padChar]
  | [] => []

/-- `EncodeToString`. -/
def EncodeToString (src : List Nat) : String := String.mk (Encode src)

/-- The loop `for si < len(src) && (src[si] == '\n' || src[si] == '\r') { si++ }`. -/
def skipNewlines : List Char → List Char
  | c :: cs => if c = '\n' ∨ c = '\r' then skipNewlines cs else c :: cs
  | [] => []

/-- The last step of `decodeQuantum`: the `dlen` six-bit values in `dbuf`
(missing ones are zero) are packed into 24 bits and the first `dlen - 1` bytes
are written out. -/
def quantumBytes (dbuf : List Nat) : List Nat :=
  let val := dbuf.getD 0 0 <<< 18 ||| dbuf.getD 1 0 <<< 12 ||| dbuf.getD 2 0 <<< 6 ||| dbuf.getD 3 0
  ([toByte (val >>> 16), toByte (val >>> 8), toByte (val >>> 0)]).take (dbuf.length - 1)

/-- `(*Encoding).Decode` for `StdEncoding` (padded, not strict), with its helper
`decodeQuantum` inlined: `dbuf` holds the six-bit values read so far in the
current quantum (the loop index `j` is `dbuf.length`), and a completed quantum
is followed by the next one as in the loop `for si < len(src)`. The result is
the decoded bytes `dst[:n]` and whether a `CorruptInputError` was raised. -/
def decodeFrom : List Char → List Nat → List Nat × Bool
  | [], dbuf =>
    -- `len(src) == si`: fine at `j == 0`, corrupt otherwise (the encoding is padded)
    ([], decide (dbuf.length ≠ 0))
  | c :: src, dbuf =>
    match decodeMap c with
    | some out =>
      if dbuf.length = 3 then
        let next := decodeFrom src []
        (quantumBytes (dbuf ++ [out]) ++ next.1, next.2)
      else decodeFrom src (dbuf ++ [out])
    | none =>
      if c = '\n' ∨ c = '\r' then decodeFrom src dbuf
      else if c ≠ padChar then ([], true)
      else if dbuf.length < 2 then ([], true)
      else if dbuf.length = 2 then
        -- `"=="` is expected, the first `=` is already consumed
        match skipNewlines src with
        | [] => ([], true)
        | c2 :: src2 =>
          if c2 ≠ padChar then ([], true)
          -- trailing garbage is reported after the bytes are written
          else (quantumBytes dbuf, decide (skipNewlines src2 ≠ []))
      else (quantumBytes dbuf, decide (skipNewlines src ≠ []))

/-- `DecodeString`: the decoded bytes, and whether an error is returned with them. -/
def DecodeString (s : String) : List Nat × Bool := decodeFrom s.data []

/-! ## The block-ID codec of `BlobMover` -/

/-- `BinaryToBase64`. -/
def BinaryToBase64 (binaryID : List Nat) : String := EncodeToString binaryID

/-- `Int64ToBase64`: the 8-byte little-endian form of the block number, in base64. -/
def Int64ToBase64 (blockID : Int) : String :=
  let buf := PutUint64 (toUint64 blockID)
  BinaryToBase64 buf

/-- `Base64ToInt64`: the decoding error is dropped (`bin, _ := ...`) and the
bytes obtained are read as a little-endian word; `none` is the panic of
`Uint64` on fewer than eight bytes. -/
def Base64ToInt64 (base64ID : String) : Option Int :=
  let bin := (DecodeString base64ID).1
  (Uint64 bin).map toInt64

/-! ## The object store (external collaborator)

The Azure SDK calls made by the mover are requests to a remote store. The store
is modelled by the log of the requests it has received and by an arbitrary
function giving its reply (an error or `nil`) to the newest request of a log. -/

/-- `azblob.ContainerURL`: the endpoint and the shared-key credential it was
built from. -/
structure ContainerURL where
  endpoint : String
  accountName : String
  accountKey : String
  deriving DecidableEq, Repr

/-- The Go zero value `azblob.ContainerURL{}`. -/
def ContainerURL.zero : ContainerURL := ⟨"", "", ""⟩

/-- `azblob.BlockBlobURL`, as made by `containerURL.NewBlockBlobURL(objKey)`. -/
structure BlockBlobURL where
  container : ContainerURL
  objKey : String
  deriving DecidableEq, Repr

/-- `containerURL.NewBlockBlobURL(objKey)`. -/
def ContainerURL.NewBlockBlobURL (c : ContainerURL) (objKey : String) : BlockBlobURL :=
  ⟨c, objKey⟩

/-- The requests the multipart upload sends to the store. -/
inductive Request where
  | StageBlock (blobURL : BlockBlobURL) (base64BlockID : String) (body : List Nat)
  | CommitBlockList (blobURL : BlockBlobURL) (base64BlockIDs : List String)
  deriving DecidableEq, Repr

/-- The store: the requests received so far, oldest first, and its behaviour. -/
structure Store where
  log : List Request
  reply : List Request → Option GoError

/-- Send one request: it is appended to the log and the store's reply to it is
returned. -/
def Store.send (store : Store) (req : Request) : Store × Option GoError :=
  ({ store with log := store.log ++ [req] }, store.reply (store.log ++ [req]))

/-! ## The mover and its multipart upload session -/

/-- Modelled from the spec: `LocationInfo` is declared in the `utils` package,
which is not part of the sources; these are the fields the mover reads
(endpoint, access key, secret, bucket name). -/
structure LocationInfo where
  EndPoint : String
  Access : String
  Security : String
  BucketName : String
  deriving DecidableEq, Repr

/-- `type BlobMover struct`. -/
structure BlobMover where
  containerURL : ContainerURL
  completeParts : List String
  deriving DecidableEq, Repr

/-- The Go zero value `&BlobMover{}` of a newly created mover. -/
def BlobMover.zero : BlobMover := ⟨ContainerURL.zero, []⟩

/-- `createContainerURL`. `cred` is the error, if any, of
`azblob.NewSharedKeyCredential`; the endpoint is kept unparsed. -/
def createContainerURL (cred : Option GoError) (endpoint acountName accountKey : String) :
    ContainerURL × Option GoError :=
  match cred with
  | some err => (ContainerURL.zero, some err)
  | none => (⟨endpoint, acountName, accountKey⟩, none)

/-- `Init`: the container URL is overwritten with the result of
`createContainerURL`, also when that result is an error. -/
def Init (mover : BlobMover) (cred : Option GoError) (endpoint acountName accountKey : String) :
    BlobMover × Option GoError :=
  let (url, err) := createContainerURL cred endpoint acountName accountKey
  let mover := { mover with containerURL := url }
  match err with
  | some err => (mover, some err)
  | none => (mover, none)

/-- `MultiPartUploadInit`. -/
def MultiPartUploadInit (mover : BlobMover) (cred : Option GoError) (objKey : String)
    (destLoca : LocationInfo) : BlobMover × Option GoError :=
  Init mover cred destLoca.EndPoint destLoca.Access destLoca.Security

/-- `UploadPart`. The parameters `destLoca`, `upBytes` and `offset` of the
source are only logged and are left out. -/
def UploadPart (mover : BlobMover) (store : Store) (objKey : String) (buf : List Nat)
    (partNumber : Int) : BlobMover × Store × Option GoError :=
  let blobURL := mover.containerURL.NewBlockBlobURL objKey
  let base64ID := Int64ToBase64 partNumber
  let (store, err) := store.send (Request.StageBlock blobURL base64ID buf)
  match err with
  | some err => (mover, store, some err)
  | none => ({ mover with completeParts := mover.completeParts ++ [base64ID] }, store, none)

/-- `AbortMultipartUpload`: a log line, then `return nil`. -/
def AbortMultipartUpload (mover : BlobMover) (store : Store) (objKey : String)
    (destLoca : LocationInfo) : BlobMover × Store × Option GoError :=
  (mover, store, none)

/-- `CompleteMultipartUpload`: the block list is committed; an error of the
commit is logged and the function ends with `return nil`. -/
def CompleteMultipartUpload (mover : BlobMover) (store : Store) (objKey : String)
    (destLoca : LocationInfo) : BlobMover × Store × Option GoError :=
  let blobURL := mover.containerURL.NewBlockBlobURL objKey
  let (store, _err) := store.send (Request.CommitBlockList blobURL mover.completeParts)
  (mover, store, none)

/-- A caller staging the given parts (payload and part number) one after the
other with `UploadPart`, whatever each call returns. -/
def uploadParts (objKey : String) :
    List (List Nat × Int) → BlobMover × Store → BlobMover × Store
  | [], session => session
  | (buf, partNumber) :: parts, (mover, store) =>
    let r := UploadPart mover store objKey buf partNumber
    uploadParts objKey parts (r.1, r.2.1)

/-! ## Download: the read loop -/

/-- An `io.Reader` with internal state `σ`: `Read st n` is a read into a slice
of length `n`, giving the bytes written to the front of the slice (their
number is the returned count), the returned error and the next state. -/
structure Reader (σ : Type) where
  Read : σ → Nat → List Nat × Option GoError × σ

/-- What `DownloadObj` hands back: the buffer as the reads left it, and the
two return values. -/
structure DownloadResult where
  buf : List Nat
  size : Nat
  err : Option GoError
  deriving DecidableEq, Repr

/-- The `for` loop of `DownloadObj`, one iteration per unit of fuel; `none` when
the fuel is used up before the loop breaks. The result is the buffer, `size`
and `readErr` at the `break`. `size` never exceeds `len(buf)` for a reader that
returns at most the slice length, so the `int64` addition does not wrap. -/
def readLoop {σ : Type} (body : Reader σ) :
    Nat → σ → List Nat → Nat → Option (List Nat × Nat × Option GoError)
  | 0, _, _, _ => none
  | fuel + 1, st, buf, size =>
    -- `s := buf[size:]`
    let r := body.Read st (buf.length - size)
    let readCount := r.1.length
    let buf := buf.take size ++ r.1 ++ buf.drop (size + readCount)
    let size := if readCount > 0 then size + readCount else size
    match r.2.1 with
    | some readErr => some (buf, size, some readErr)
    | none => readLoop body fuel r.2.2 buf size

/-- `DownloadObj`. `cred` is the outcome of the credential creation in `Init`,
`download` the outcome of `blobURL.Download`: an error, or the state of the
response body. `none` when the read loop does not end within `fuel`
iterations. -/
def DownloadObj {σ : Type} (fuel : Nat) (body : Reader σ) (mover : BlobMover)
    (cred : Option GoError) (download : Except GoError σ) (objKey : String)
    (srcLoca : LocationInfo) (buf : List Nat) : Option (BlobMover × DownloadResult) :=
  match Init mover cred srcLoca.EndPoint srcLoca.Access srcLoca.Security with
  | (mover, some err) => some (mover, ⟨buf, 0, some err⟩)
  | (mover, none) =>
    match download with
    | .error err => some (mover, ⟨buf, 0, some err⟩)
    | .ok st =>
      match readLoop body fuel st buf 0 with
      | none => none
      | some (buf, size, readErr) =>
        let readErr := if readErr = some GoError.EOF then none else readErr
        some (mover, ⟨buf, size, readErr⟩)

/-- One step of a scripted byte stream: some bytes, and the error delivered
together with the last of them (`nil` for a plain fragment). -/
structure Chunk where
  data : List Nat
  err : Option GoError
  deriving DecidableEq, Repr

/-- A byte stream given by the chunks still to come. A read delivers the next
chunk if it fits into the slice and otherwise as much of it as fits, with a
`nil` error; so a read into an empty slice while data is pending gives
`(0, nil)`. When no chunk is left every read gives `(0, io.EOF)`. -/
def scriptRead : List Chunk → Nat → List Nat × Option GoError × List Chunk
  | [], _ => ([], some GoError.EOF, [])
  | c :: rest, n =>
    if c.data.length ≤ n then (c.data, c.err, rest)
    else (c.data.take n, none, { c with data := c.data.drop n } :: rest)

/-- The scripted stream as a reader. -/
def scriptReader : Reader (List Chunk) := ⟨scriptRead⟩

/-- The stream that delivers the given fragments in order and then ends. -/
def fragments (frags : List (List Nat)) : List Chunk := frags.map fun f => ⟨f, none⟩

/-- All bytes of a list of chunks, in order. -/
def chunkData (cs : List Chunk) : List Nat := (cs.map Chunk.data).flatten

/-! ## Fixtures: concrete stores, locations and sessions -/

/-- A store that acknowledges every request; nothing received yet. -/
def ackStore : Store := ⟨[], fun _ => none⟩

/-- A store that acknowledges the staging of blocks and rejects every commit. -/
def rejectCommitStore : Store :=
  ⟨[], fun history =>
    match history.getLast? with
    | some (Request.CommitBlockList _ _) => some (GoError.other "commit failed")
    | _ => none⟩

/-- A store that rejects every request. -/
def rejectStore : Store := ⟨[], fun _ => some (GoError.other "stage failed")⟩

/-- A destination. -/
def sampleLoca : LocationInfo := ⟨"https://account.blob.core.windows.net/bucket", "account", "a2V5", "bucket"⟩

/-- A new mover after `MultiPartUploadInit` for object `"first"` and one
acknowledged `UploadPart` of part 0. -/
def stagedSession : BlobMover × Store :=
  let init := MultiPartUploadInit BlobMover.zero none "first" sampleLoca
  let staged := UploadPart init.1 ackStore "first" [65, 65] 0
  (staged.1, staged.2.1)

/-- The session `stagedSession` after `AbortMultipartUpload`. -/
def abortedSession : BlobMover × Store :=
  let aborted := AbortMultipartUpload stagedSession.1 stagedSession.2 "first" sampleLoca
  (aborted.1, aborted.2.1)

/-- The session `stagedSession` after `CompleteMultipartUpload`. -/
def completedSession : BlobMover × Store :=
  let completed := CompleteMultipartUpload stagedSession.1 stagedSession.2 "first" sampleLoca
  (completed.1, completed.2.1)

/-! ## Block-ID codec -/

/-- Bitwise or with a value shifted past all bits of the left operand is a sum. -/
theorem or_shiftLeft_of_lt (x b k : Nat) (h : x < 2 ^ k) : x ||| b <<< k = x + b * 2 ^ k := by
  rw [Nat.or_comm, Nat.shiftLeft_eq, Nat.mul_comm b, ← Nat.mul_add_lt_is_or h, Nat.add_comm]

/-- The mask `0x3F` keeps the value modulo 64. -/
theorem and_63 (x : Nat) : x &&& 0x3F = x % 64 := Nat.and_pow_two_sub_one_eq_mod x 6

/-- The decode table inverts the alphabet on all 64 six-bit values. -/
theorem decodeMap_encodeChar : ∀ v, v < 64 → decodeMap (encodeChar v) = some v := by
  decide

/-- Reading back the eight little-endian bytes of a 64-bit word gives the word. -/
theorem Uint64_PutUint64 (v : Nat) (h : v < 2 ^ 64) : Uint64 (PutUint64 v) = some v := by
  simp only [PutUint64, Uint64, toByte, Nat.shiftRight_eq_div_pow]
  rw [or_shiftLeft_of_lt _ _ 8 (by omega), or_shiftLeft_of_lt _ _ 16 (by omega),
    or_shiftLeft_of_lt _ _ 24 (by omega), or_shiftLeft_of_lt _ _ 32 (by omega),
    or_shiftLeft_of_lt _ _ 40 (by omega), or_shiftLeft_of_lt _ _ 48 (by omega),
    or_shiftLeft_of_lt _ _ 56 (by omega)]
  congr 1
  omega

/-- The conversions `int64 -> uint64 -> int64` give back the number. -/
theorem toInt64_toUint64 (n : Int) (h1 : -2 ^ 63 ≤ n) (h2 : n < 2 ^ 63) : toInt64 (toUint64 n) = n := by
  unfold toInt64 toUint64
  have h3 : ((n % 2 ^ 64).toNat % 2 ^ 64 : Nat) = (n % 2 ^ 64).toNat := by
    apply Nat.mod_eq_of_lt
    omega
  rw [h3]
  split <;> omega

/-- Four alphabet characters are decoded as one full quantum, and decoding goes on. -/
theorem decodeFrom_full (a b c d : Nat) (ha : a < 64) (hb : b < 64) (hc : c < 64) (hd : d < 64)
    (rest : List Char) :
    decodeFrom (encodeChar a :: encodeChar b :: encodeChar c :: encodeChar d :: rest) [] =
      (quantumBytes [a, b, c, d] ++ (decodeFrom rest []).1, (decodeFrom rest []).2) := by
  simp [decodeFrom, decodeMap_encodeChar, ha, hb, hc, hd]

/-- Three alphabet characters and one `=` end the input with a two-byte quantum. -/
theorem decodeFrom_pad1 (a b c : Nat) (ha : a < 64) (hb : b < 64) (hc : c < 64) :
    decodeFrom [encodeChar a, encodeChar b, encodeChar c, padChar] [] =
      (quantumBytes [a, b, c], false) := by
  have hp : decodeMap padChar = none := by decide
  have hp1 : ¬ (padChar = '\n' ∨ padChar = '\r') := by decide
  simp [decodeFrom, decodeMap_encodeChar, ha, hb, hc, hp, hp1, skipNewlines]

/-- A bitwise or of a multiple of `2 ^ k` with a number below `2 ^ k` is their sum. -/
theorem or_eq_add (y x k m : Nat) (hx : x < 2 ^ k) (hy : y = 2 ^ k * m) : y ||| x = y + x := by
  subst hy
  exact (Nat.mul_add_lt_is_or hx m).symm

/-- Three bytes packed into 24 bits, as arithmetic. -/
theorem pack3 (b0 b1 b2 : Nat) (h1 : b1 < 256) (h2 : b2 < 256) :
    b0 <<< 16 ||| b1 <<< 8 ||| b2 = b0 * 65536 + b1 * 256 + b2 := by
  simp only [Nat.shiftLeft_eq]
  rw [or_eq_add (b0 * 2 ^ 16) (b1 * 2 ^ 8) 16 b0 (by omega) (by omega),
    or_eq_add (b0 * 2 ^ 16 + b1 * 2 ^ 8) b2 8 (b0 * 256 + b1) (by omega) (by omega)]

/-- Four six-bit values packed into 24 bits, as arithmetic. -/
theorem pack4 (a b c d : Nat) (hb : b < 64) (hc : c < 64) (hd : d < 64) :
    a <<< 18 ||| b <<< 12 ||| c <<< 6 ||| d = a * 262144 + b * 4096 + c * 64 + d := by
  simp only [Nat.shiftLeft_eq]
  rw [or_eq_add (a * 2 ^ 18) (b * 2 ^ 12) 18 a (by omega) (by omega),
    or_eq_add (a * 2 ^ 18 + b * 2 ^ 12) (c * 2 ^ 6) 12 (a * 64 + b) (by omega) (by omega),
    or_eq_add (a * 2 ^ 18 + b * 2 ^ 12 + c * 2 ^ 6) d 6 (a * 4096 + b * 64 + c) (by omega)
      (by omega)]

/-- The four six-bit values cut out of three bytes are packed back into those bytes. -/
theorem quantumBytes_full (b0 b1 b2 : Nat) (h0 : b0 < 256) (h1 : b1 < 256) (h2 : b2 < 256) :
    quantumBytes [(b0 <<< 16 ||| b1 <<< 8 ||| b2) >>> 18 &&& 0x3F,
      (b0 <<< 16 ||| b1 <<< 8 ||| b2) >>> 12 &&& 0x3F,
      (b0 <<< 16 ||| b1 <<< 8 ||| b2) >>> 6 &&& 0x3F,
      (b0 <<< 16 ||| b1 <<< 8 ||| b2) &&& 0x3F] = [b0, b1, b2] := by
  rw [pack3 b0 b1 b2 h1 h2]
  simp only [quantumBytes, and_63, Nat.shiftRight_eq_div_pow, List.getD_cons_zero,
    List.getD_cons_succ, List.length_cons, List.length_nil, toByte]
  rw [pack4 _ _ _ _ (Nat.mod_lt _ (by decide)) (Nat.mod_lt _ (by decide))
    (Nat.mod_lt _ (by decide))]
  simp only [List.take, Nat.reduceAdd, Nat.reduceSub, List.cons.injEq, and_true]
  refine ⟨?_, ?_, ?_⟩ <;> omega

/-- The three six-bit values cut out of two bytes are packed back into those bytes. -/
theorem quantumBytes_two (b0 b1 : Nat) (h0 : b0 < 256) (h1 : b1 < 256) :
    quantumBytes [(b0 <<< 16 ||| b1 <<< 8) >>> 18 &&& 0x3F,
      (b0 <<< 16 ||| b1 <<< 8) >>> 12 &&& 0x3F,
      (b0 <<< 16 ||| b1 <<< 8) >>> 6 &&& 0x3F] = [b0, b1] := by
  have hv : b0 <<< 16 ||| b1 <<< 8 = b0 * 65536 + b1 * 256 := by
    simp only [Nat.shiftLeft_eq]
    rw [or_eq_add (b0 * 2 ^ 16) (b1 * 2 ^ 8) 16 b0 (by omega) (by omega)]
  rw [hv]
  simp only [quantumBytes, and_63, Nat.shiftRight_eq_div_pow, List.getD_cons_zero,
    List.getD_cons_succ, List.length_cons, List.length_nil, toByte, List.getD_nil]
  rw [pack4 _ _ _ _ (Nat.mod_lt _ (by decide)) (Nat.mod_lt _ (by decide)) (by decide)]
  simp only [List.take, Nat.reduceAdd, Nat.reduceSub, List.cons.injEq, and_true]
  refine ⟨?_, ?_⟩ <;> omega

/-- Claim C1: for every signed 64-bit integer `n` (the minimum and the maximum
included), decoding the block ID made from `n` gives back exactly `n`:
`Base64ToInt64(Int64ToBase64(n)) == n`, without a panic. -/
theorem Base64ToInt64_Int64ToBase64 (n : Int) (hlo : -2 ^ 63 ≤ n) (hhi : n < 2 ^ 63) :
    Base64ToInt64 (Int64ToBase64 n) = some n := by
  have hu : toUint64 n < 2 ^ 64 := by unfold toUint64; omega
  have hdec : (DecodeString (Int64ToBase64 n)).1 = PutUint64 (toUint64 n) := by
    simp only [DecodeString, Int64ToBase64, BinaryToBase64, EncodeToString, PutUint64, Encode]
    have hb : ∀ x, toByte x < 256 := fun x => Nat.mod_lt _ (by decide)
    have h64 : ∀ x, x &&& 0x3F < 64 := fun x => by rw [and_63]; exact Nat.mod_lt _ (by decide)
    rw [decodeFrom_full _ _ _ _ (h64 _) (h64 _) (h64 _) (h64 _),
      decodeFrom_full _ _ _ _ (h64 _) (h64 _) (h64 _) (h64 _),
      decodeFrom_pad1 _ _ _ (h64 _) (h64 _) (h64 _),
      quantumBytes_full _ _ _ (hb _) (hb _) (hb _),
      quantumBytes_full _ _ _ (hb _) (hb _) (hb _),
      quantumBytes_two _ _ (hb _) (hb _)]
    rfl
  unfold Base64ToInt64
  simp only [hdec, Uint64_PutUint64 _ hu, Option.map_some', toInt64_toUint64 n hlo hhi]

/-- The round trip at the smallest `int64`. -/
theorem Base64ToInt64_Int64ToBase64_witness :
    (-2 ^ 63 ≤ (-9223372036854775808 : Int) ∧ (-9223372036854775808 : Int) < 2 ^ 63) ∧
    Base64ToInt64 (Int64ToBase64 (-9223372036854775808)) = some (-9223372036854775808) :=
  ⟨by decide, Base64ToInt64_Int64ToBase64 (-9223372036854775808) (by decide) (by decide)⟩

/-- Claim C8 (the code departs from it): on the empty string, and on any
string that decodes to fewer than eight bytes, `Base64ToInt64` does not return
a value: `Uint64` panics on the short slice. -/
theorem Base64ToInt64_panics_on_short_input :
    Base64ToInt64 "" = none ∧ Base64ToInt64 "AAAA" = none ∧
    Base64ToInt64 "not base64" = none := by
  decide


/-! ## Multipart upload session -/

/-- The result of `UploadPart` when the store acknowledges the block. -/
theorem UploadPart_ack (mover : BlobMover) (store : Store) (objKey : String) (buf : List Nat)
    (partNumber : Int)
    (h : store.reply (store.log ++ [Request.StageBlock (mover.containerURL.NewBlockBlobURL objKey)
      (Int64ToBase64 partNumber) buf]) = none) :
    UploadPart mover store objKey buf partNumber =
      ({ mover with completeParts := mover.completeParts ++ [Int64ToBase64 partNumber] },
       { store with log := store.log ++ [Request.StageBlock
          (mover.containerURL.NewBlockBlobURL objKey) (Int64ToBase64 partNumber) buf] }, none) := by
  simp [UploadPart, Store.send, h]

/-- The result of `UploadPart` when the store rejects the block. -/
theorem UploadPart_fail (mover : BlobMover) (store : Store) (objKey : String) (buf : List Nat)
    (partNumber : Int) (err : GoError)
    (h : store.reply (store.log ++ [Request.StageBlock (mover.containerURL.NewBlockBlobURL objKey)
      (Int64ToBase64 partNumber) buf]) = some err) :
    UploadPart mover store objKey buf partNumber =
      (mover, { store with log := store.log ++ [Request.StageBlock
          (mover.containerURL.NewBlockBlobURL objKey) (Int64ToBase64 partNumber) buf] },
       some err) := by
  simp [UploadPart, Store.send, h]

/-- With every stage request acknowledged, a run of `UploadPart` calls appends the
tokens of the parts in the order of the calls. -/
theorem uploadParts_ack (objKey : String) (parts : List (List Nat × Int)) :
    ∀ (mover : BlobMover) (store : Store),
      (∀ history blobURL base64ID body,
        store.reply (history ++ [Request.StageBlock blobURL base64ID body]) = none) →
      (uploadParts objKey parts (mover, store)).1 =
        { mover with completeParts :=
            mover.completeParts ++ parts.map fun p => Int64ToBase64 p.2 } := by
  induction parts with
  | nil => intro mover store _; simp [uploadParts]
  | cons p parts ih =>
    intro mover store hack
    obtain ⟨buf, partNumber⟩ := p
    simp only [uploadParts]
    rw [UploadPart_ack mover store objKey buf partNumber (hack _ _ _ _)]
    simp only []
    rw [ih]
    · simp
    · exact fun history blobURL base64ID body => hack history blobURL base64ID body

/-- Claim C2: when the staged-token list starts empty and the store
acknowledges every stage request, the block list that `CompleteMultipartUpload`
sends to the store after any sequence of `UploadPart` calls is the list of the
tokens `Int64ToBase64(p1), ..., Int64ToBase64(pk)` in the order of the calls; it
is not sorted by part number. -/
theorem CompleteMultipartUpload_commits_in_call_order (mover : BlobMover) (store : Store)
    (objKey : String) (destLoca : LocationInfo) (parts : List (List Nat × Int))
    (hempty : mover.completeParts = [])
    (hack : ∀ history blobURL base64ID body,
      store.reply (history ++ [Request.StageBlock blobURL base64ID body]) = none) :
    (CompleteMultipartUpload (uploadParts objKey parts (mover, store)).1
        (uploadParts objKey parts (mover, store)).2 objKey destLoca).2.1.log =
      (uploadParts objKey parts (mover, store)).2.log ++
        [Request.CommitBlockList (mover.containerURL.NewBlockBlobURL objKey)
          (parts.map fun p => Int64ToBase64 p.2)] := by
  rw [uploadParts_ack objKey parts mover store hack]
  simp [CompleteMultipartUpload, Store.send, hempty]

/-- Staging part 1 and then part 0 commits `[token(1), token(0)]`. -/
theorem CompleteMultipartUpload_commits_in_call_order_witness :
    BlobMover.zero.completeParts = [] ∧
    (CompleteMultipartUpload (uploadParts "obj" [([66, 66], 1), ([65, 65], 0)] (BlobMover.zero, ackStore)).1
        (uploadParts "obj" [([66, 66], 1), ([65, 65], 0)] (BlobMover.zero, ackStore)).2
        "obj" sampleLoca).2.1.log =
      (uploadParts "obj" [([66, 66], 1), ([65, 65], 0)] (BlobMover.zero, ackStore)).2.log ++
        [Request.CommitBlockList (BlobMover.zero.containerURL.NewBlockBlobURL "obj")
          ["AQAAAAAAAAA=", "AAAAAAAAAAA="]] :=
  ⟨rfl, CompleteMultipartUpload_commits_in_call_order BlobMover.zero ackStore "obj" sampleLoca
    [([66, 66], 1), ([65, 65], 0)] rfl (fun _ _ _ _ => rfl)⟩

/-- Claim C3: if the store acknowledges the stage request, `UploadPart` returns
`nil` and the staged-token list is the old list with `Int64ToBase64(partNumber)`
appended; if the store reports an error, `UploadPart` returns that error and
the mover, its staged-token list included, is unchanged. -/
theorem UploadPart_appends_on_ack_keeps_on_failure (mover : BlobMover) (store : Store)
    (objKey : String) (buf : List Nat) (partNumber : Int) :
    ((store.send (Request.StageBlock (mover.containerURL.NewBlockBlobURL objKey)
          (Int64ToBase64 partNumber) buf)).2 = none →
        (UploadPart mover store objKey buf partNumber).2.2 = none ∧
        (UploadPart mover store objKey buf partNumber).1.completeParts =
          mover.completeParts ++ [Int64ToBase64 partNumber]) ∧
    (∀ err, (store.send (Request.StageBlock (mover.containerURL.NewBlockBlobURL objKey)
          (Int64ToBase64 partNumber) buf)).2 = some err →
        (UploadPart mover store objKey buf partNumber).2.2 = some err ∧
        (UploadPart mover store objKey buf partNumber).1 = mover) := by
  constructor
  · intro h
    rw [UploadPart_ack mover store objKey buf partNumber h]
    exact ⟨rfl, rfl⟩
  · intro err h
    rw [UploadPart_fail mover store objKey buf partNumber err h]
    exact ⟨rfl, rfl⟩

/-- An acknowledged and a rejected `UploadPart` of part 1 after part 0. -/
theorem UploadPart_appends_on_ack_keeps_on_failure_witness :
    ((UploadPart stagedSession.1 ackStore "obj" [66, 66] 1).2.2 = none ∧
      (UploadPart stagedSession.1 ackStore "obj" [66, 66] 1).1.completeParts =
        ["AAAAAAAAAAA=", "AQAAAAAAAAA="]) ∧
    ((UploadPart stagedSession.1 rejectStore "obj" [66, 66] 1).2.2 =
        some (GoError.other "stage failed") ∧
      (UploadPart stagedSession.1 rejectStore "obj" [66, 66] 1).1 = stagedSession.1) :=
  ⟨(UploadPart_appends_on_ack_keeps_on_failure stagedSession.1 ackStore "obj" [66, 66] 1).1 rfl,
   (UploadPart_appends_on_ack_keeps_on_failure stagedSession.1 rejectStore "obj" [66, 66] 1).2
     (GoError.other "stage failed") rfl⟩

/-- Claim C4 (the code departs from it): the store rejects the commit of the
block list with an error, and `CompleteMultipartUpload` still returns `nil` to
its caller; the staged-token list is unchanged. -/
theorem CompleteMultipartUpload_returns_nil_on_failed_commit :
    (rejectCommitStore.send (Request.CommitBlockList
        (stagedSession.1.containerURL.NewBlockBlobURL "first") stagedSession.1.completeParts)).2 =
      some (GoError.other "commit failed") ∧
    (CompleteMultipartUpload stagedSession.1 rejectCommitStore "first" sampleLoca).2.2 = none ∧
    (CompleteMultipartUpload stagedSession.1 rejectCommitStore "first" sampleLoca).1.completeParts =
      stagedSession.1.completeParts := by
  decide

/-- Claim C7 fails: after `MultiPartUploadInit`, one `UploadPart` and
`AbortMultipartUpload`, a further `UploadPart` returns `nil`, stages its block
and appends the token, and `CompleteMultipartUpload` sends the block list to
the store. -/
theorem abort_is_not_terminal :
    (UploadPart abortedSession.1 abortedSession.2 "first" [66, 66] 1).2.2 = none ∧
    (UploadPart abortedSession.1 abortedSession.2 "first" [66, 66] 1).1.completeParts =
      ["AAAAAAAAAAA=", "AQAAAAAAAAA="] ∧
    (UploadPart abortedSession.1 abortedSession.2 "first" [66, 66] 1).2.1.log.getLast? =
      some (Request.StageBlock (abortedSession.1.containerURL.NewBlockBlobURL "first")
        "AQAAAAAAAAA=" [66, 66]) ∧
    (CompleteMultipartUpload abortedSession.1 abortedSession.2 "first" sampleLoca).2.2 = none ∧
    (CompleteMultipartUpload abortedSession.1 abortedSession.2 "first" sampleLoca).2.1.log.getLast? =
      some (Request.CommitBlockList (abortedSession.1.containerURL.NewBlockBlobURL "first")
        ["AAAAAAAAAAA="]) := by
  decide

/-- Claim C7, amended: `AbortMultipartUpload` returns `nil`, sends nothing to
the store and leaves the session as it was, so a later `UploadPart` or
`CompleteMultipartUpload` does exactly what it would have done without the
abort. -/
theorem AbortMultipartUpload_changes_nothing (mover : BlobMover) (store : Store)
    (objKey : String) (destLoca : LocationInfo) (buf : List Nat) (partNumber : Int) :
    AbortMultipartUpload mover store objKey destLoca = (mover, store, none) ∧
    UploadPart (AbortMultipartUpload mover store objKey destLoca).1
        (AbortMultipartUpload mover store objKey destLoca).2.1 objKey buf partNumber =
      UploadPart mover store objKey buf partNumber ∧
    CompleteMultipartUpload (AbortMultipartUpload mover store objKey destLoca).1
        (AbortMultipartUpload mover store objKey destLoca).2.1 objKey destLoca =
      CompleteMultipartUpload mover store objKey destLoca :=
  ⟨rfl, rfl, rfl⟩

/-- Claim C9 fails: the token staged for object `"first"` is still in the list
after `CompleteMultipartUpload`, after `AbortMultipartUpload` and after the
`MultiPartUploadInit` for object `"second"`, and it is part of the block list
committed for `"second"`. -/
theorem completeParts_survives_the_upload :
    completedSession.1.completeParts = ["AAAAAAAAAAA="] ∧
    abortedSession.1.completeParts = ["AAAAAAAAAAA="] ∧
    (MultiPartUploadInit completedSession.1 none "second" sampleLoca).1.completeParts =
      ["AAAAAAAAAAA="] ∧
    (CompleteMultipartUpload
        (UploadPart (MultiPartUploadInit completedSession.1 none "second" sampleLoca).1
          completedSession.2 "second" [67, 67] 7).1
        (UploadPart (MultiPartUploadInit completedSession.1 none "second" sampleLoca).1
          completedSession.2 "second" [67, 67] 7).2.1 "second" sampleLoca).2.1.log.getLast? =
      some (Request.CommitBlockList
        ((MultiPartUploadInit completedSession.1 none "second" sampleLoca).1.containerURL.NewBlockBlobURL
          "second") ["AAAAAAAAAAA=", "BwAAAAAAAAA="]) := by
  decide

/-- Claim C9, amended: the staged-token list is empty in a newly created
`BlobMover`, and `MultiPartUploadInit`, `AbortMultipartUpload` and
`CompleteMultipartUpload` each leave the list exactly as it was. -/
theorem completeParts_kept_by_init_abort_complete (mover : BlobMover) (store : Store)
    (cred : Option GoError) (objKey : String) (destLoca : LocationInfo) :
    BlobMover.zero.completeParts = [] ∧
    (MultiPartUploadInit mover cred objKey destLoca).1.completeParts = mover.completeParts ∧
    (AbortMultipartUpload mover store objKey destLoca).1.completeParts = mover.completeParts ∧
    (CompleteMultipartUpload mover store objKey destLoca).1.completeParts =
      mover.completeParts := by
  refine ⟨rfl, ?_, rfl, rfl⟩
  cases cred <;> rfl


/-! ## Download read loop -/

/-- The scripted stream keeps the `io.Reader` contract: a read returns at most as
many bytes as the slice holds. -/
theorem scriptRead_length_le (cs : List Chunk) (n : Nat) : (scriptRead cs n).1.length ≤ n := by
  cases cs with
  | nil => simp [scriptRead]
  | cons c rest =>
    simp only [scriptRead]
    split
    · assumption
    · simp only [List.length_take]; omega

/-- One iteration of the read loop on a read without error: `w` is the part of
the buffer filled so far, `u` the part still free. -/
theorem readLoop_step_ok {σ : Type} (body : Reader σ) (fuel : Nat) (st st2 : σ) (w u d : List Nat)
    (hread : body.Read st u.length = (d, none, st2)) (hd : d.length ≤ u.length) :
    readLoop body (fuel + 1) st (w ++ u) w.length =
      readLoop body fuel st2 ((w ++ d) ++ u.drop d.length) (w ++ d).length := by
  have hlen : (w ++ u).length - w.length = u.length := by simp
  simp only [readLoop, hlen, hread]
  have h1 : List.take w.length (w ++ u) = w := by simp
  have h2 : List.drop (w.length + d.length) (w ++ u) = u.drop d.length := by
    rw [List.drop_append]
  have h3 : (if d.length > 0 then w.length + d.length else w.length) = (w ++ d).length := by
    simp only [List.length_append]; split <;> omega
  rw [h1, h2, h3]

/-- One iteration of the read loop on a read that returns an error: the loop breaks. -/
theorem readLoop_step_err {σ : Type} (body : Reader σ) (fuel : Nat) (st st2 : σ) (w u d : List Nat)
    (e : GoError) (hread : body.Read st u.length = (d, some e, st2)) :
    readLoop body (fuel + 1) st (w ++ u) w.length =
      some ((w ++ d) ++ u.drop d.length, (w ++ d).length, some e) := by
  have hlen : (w ++ u).length - w.length = u.length := by simp
  simp only [readLoop, hlen, hread]
  have h1 : List.take w.length (w ++ u) = w := by simp
  have h2 : List.drop (w.length + d.length) (w ++ u) = u.drop d.length := by
    rw [List.drop_append]
  have h3 : (if d.length > 0 then w.length + d.length else w.length) = (w ++ d).length := by
    simp only [List.length_append]; split <;> omega
  rw [h1, h2, h3]

/-- The read loop on a scripted stream: the chunks `pre` are read without error and
fit into the free part `u` of the buffer, and the read after them returns `d`
with the error `e`. -/
theorem readLoop_script (pre : List Chunk) :
    ∀ (tail : List Chunk) (w u d : List Nat) (e : GoError) (st2 : List Chunk) (fuel : Nat),
      (∀ c ∈ pre, c.err = none) →
      (chunkData pre).length ≤ u.length →
      scriptRead tail (u.length - (chunkData pre).length) = (d, some e, st2) →
      pre.length < fuel →
      readLoop scriptReader fuel (pre ++ tail) (w ++ u) w.length =
        some ((w ++ (chunkData pre ++ d)) ++ u.drop ((chunkData pre).length + d.length),
          (w ++ (chunkData pre ++ d)).length, some e) := by
  induction pre with
  | nil =>
    intro tail w u d e st2 fuel _ _ hread hfuel
    obtain ⟨fuel, rfl⟩ : ∃ f, fuel = f + 1 := ⟨fuel - 1, by simp at hfuel; omega⟩
    simp only [chunkData, List.map_nil, List.flatten_nil, List.length_nil, Nat.sub_zero] at hread
    rw [List.nil_append, readLoop_step_err scriptReader fuel tail st2 w u d e hread]
    simp [chunkData]
  | cons c pre ih =>
    intro tail w u d e st2 fuel hpre hfit hread hfuel
    obtain ⟨fuel, rfl⟩ : ∃ f, fuel = f + 1 := ⟨fuel - 1, by simp at hfuel; omega⟩
    have hc : c.err = none := hpre c (List.mem_cons_self _ _)
    have hcd : chunkData (c :: pre) = c.data ++ chunkData pre := by simp [chunkData]
    rw [hcd, List.length_append] at hfit hread
    have hstep : scriptReader.Read (c :: (pre ++ tail)) u.length = (c.data, none, pre ++ tail) := by
      have : c.data.length ≤ u.length := by omega
      simp [scriptReader, scriptRead, this, hc]
    rw [List.cons_append, readLoop_step_ok scriptReader fuel _ _ w u c.data hstep (by omega)]
    rw [ih tail (w ++ c.data) (u.drop c.data.length) d e st2 fuel
      (fun c2 h2 => hpre c2 (List.mem_cons_of_mem _ h2))
      (by simp only [List.length_drop]; omega)
      (by simp only [List.length_drop]; rw [← hread]; congr 1; omega)
      (by simp at hfuel; omega)]
    simp only [hcd, List.drop_drop, List.append_assoc, List.length_append, Nat.add_assoc]

/-- The read loop on a scripted stream without errors that holds more bytes than
the buffer has free: no number of iterations reaches the `break`. -/
theorem readLoop_spins (fuel : Nat) :
    ∀ (chunks : List Chunk) (w u : List Nat),
      (∀ c ∈ chunks, c.err = none) →
      u.length < (chunkData chunks).length →
      readLoop scriptReader fuel chunks (w ++ u) w.length = none := by
  induction fuel with
  | zero => intros; rfl
  | succ fuel ih =>
    intro chunks w u herr hlong
    cases chunks with
    | nil => simp [chunkData] at hlong
    | cons c rest =>
      have hc : c.err = none := herr c (List.mem_cons_self _ _)
      have hcd : chunkData (c :: rest) = c.data ++ chunkData rest := by simp [chunkData]
      rw [hcd, List.length_append] at hlong
      by_cases hfit : c.data.length ≤ u.length
      · have hstep : scriptReader.Read (c :: rest) u.length = (c.data, none, rest) := by
          simp [scriptReader, scriptRead, hfit, hc]
        rw [readLoop_step_ok scriptReader fuel _ _ w u c.data hstep hfit]
        exact ih rest _ _ (fun c2 h2 => herr c2 (List.mem_cons_of_mem _ h2))
          (by simp only [List.length_drop]; omega)
      · have hstep : scriptReader.Read (c :: rest) u.length =
            (c.data.take u.length, none, { c with data := c.data.drop u.length } :: rest) := by
          simp [scriptReader, scriptRead, hfit]
        rw [readLoop_step_ok scriptReader fuel _ _ w u _ hstep (by simp)]
        apply ih
        · intro c2 h2
          rcases List.mem_cons.1 h2 with h | h
          · subst h; exact hc
          · exact herr c2 (List.mem_cons_of_mem _ h)
        · simp [chunkData]
          omega

/-- The bytes of a stream of fragments are the fragments in order. -/
theorem chunkData_fragments (frags : List (List Nat)) :
    chunkData (fragments frags) = frags.flatten := by
  simp [chunkData, fragments, Function.comp_def]

/-- Claim C5: for a stream that delivers fragments totalling `L ≤ capacity`
bytes and then reports end-of-stream, the read loop of `DownloadObj` ends
within one iteration per fragment plus one, and `DownloadObj` returns
`size == L` and a `nil` error, the first `L` bytes of the buffer being the
fragments in order (the rest of the buffer is untouched). Fragments need not
be non-empty for this. -/
theorem DownloadObj_collects_fragments (mover : BlobMover) (objKey : String)
    (srcLoca : LocationInfo) (buf : List Nat) (frags : List (List Nat)) (fuel : Nat)
    (hfit : frags.flatten.length ≤ buf.length) (hfuel : frags.length < fuel) :
    (DownloadObj fuel scriptReader mover none (.ok (fragments frags)) objKey srcLoca buf).map
        Prod.snd =
      some ⟨frags.flatten ++ buf.drop frags.flatten.length, frags.flatten.length, none⟩ := by
  have h := readLoop_script (fragments frags) [] [] buf [] GoError.EOF [] fuel
    (by intro c hc; simp only [fragments, List.mem_map] at hc; obtain ⟨f, _, rfl⟩ := hc; rfl)
    (by rw [chunkData_fragments]; exact hfit) rfl (by simpa [fragments] using hfuel)
  simp only [List.append_nil, List.nil_append, List.length_nil, Nat.add_zero,
    chunkData_fragments] at h
  have h0 : readLoop scriptReader fuel (fragments frags) buf 0 =
      some (frags.flatten ++ buf.drop frags.flatten.length, frags.flatten.length,
        some GoError.EOF) := h
  simp [DownloadObj, Init, createContainerURL, h0]

/-- Three fragments of six bytes in all into a buffer of eight bytes. -/
theorem DownloadObj_collects_fragments_witness :
    ([[1, 2], [3], [4, 5, 6]].flatten.length ≤ [0, 0, 0, 0, 0, 0, 0, 0].length ∧
      [[1, 2], [3], [4, 5, 6]].length < 4) ∧
    (DownloadObj 4 scriptReader BlobMover.zero none (.ok (fragments [[1, 2], [3], [4, 5, 6]]))
        "obj" sampleLoca [0, 0, 0, 0, 0, 0, 0, 0]).map Prod.snd =
      some ⟨[1, 2, 3, 4, 5, 6, 0, 0], 6, none⟩ :=
  ⟨by decide, DownloadObj_collects_fragments BlobMover.zero "obj" sampleLoca
    [0, 0, 0, 0, 0, 0, 0, 0] [[1, 2], [3], [4, 5, 6]] 4 (by decide) (by decide)⟩

/-- Claim C6 (the code departs from it): a stream of three bytes read into a
buffer of two bytes, the stream answering a read into an empty slice with
`(0, nil)`: however many iterations are allowed, the read loop of `DownloadObj`
does not end, so nothing is returned. -/
theorem DownloadObj_never_returns_on_long_stream (fuel : Nat) :
    scriptRead (fragments [[3]]) 0 = ([], none, fragments [[3]]) ∧
    DownloadObj fuel scriptReader BlobMover.zero none (.ok (fragments [[1, 2, 3]])) "obj"
      sampleLoca [0, 0] = none := by
  have h := readLoop_spins fuel (fragments [[1, 2, 3]]) [] [0, 0] (by decide) (by decide)
  have h0 : readLoop scriptReader fuel (fragments [[1, 2, 3]]) [0, 0] 0 = none := h
  refine ⟨by decide, ?_⟩
  simp [DownloadObj, Init, createContainerURL, h0]

/-- Claim C10: on a stream whose reads succeed until one read returns an error
`e`, `k` bytes having been delivered in all (those of the failing read
included), `DownloadObj` returns `size == k` together with `e` when `e` is not
`io.EOF`, and together with `nil` when `e` is `io.EOF`. -/
theorem DownloadObj_reports_read_error (mover : BlobMover) (objKey : String)
    (srcLoca : LocationInfo) (buf : List Nat) (pre : List Chunk) (d : List Nat) (e : GoError)
    (post : List Chunk) (fuel : Nat)
    (hpre : ∀ c ∈ pre, c.err = none)
    (hfit : (chunkData pre).length + d.length ≤ buf.length) (hfuel : pre.length < fuel) :
    (DownloadObj fuel scriptReader mover none (.ok (pre ++ ⟨d, some e⟩ :: post)) objKey srcLoca
        buf).map Prod.snd =
      some ⟨chunkData pre ++ d ++ buf.drop ((chunkData pre).length + d.length),
        (chunkData pre).length + d.length, if e = GoError.EOF then none else some e⟩ := by
  have hread : scriptRead (⟨d, some e⟩ :: post) (buf.length - (chunkData pre).length) =
      (d, some e, post) := by
    have : d.length ≤ buf.length - (chunkData pre).length := by omega
    simp [scriptRead, this]
  have h := readLoop_script pre (⟨d, some e⟩ :: post) [] buf d e post fuel hpre (by omega)
    hread hfuel
  simp only [List.nil_append, List.length_nil, List.length_append] at h
  have h0 : readLoop scriptReader fuel (pre ++ ⟨d, some e⟩ :: post) buf 0 =
      some (chunkData pre ++ d ++ buf.drop ((chunkData pre).length + d.length),
        (chunkData pre).length + d.length, some e) := h
  by_cases he : e = GoError.EOF
  · subst he
    simp [DownloadObj, Init, createContainerURL, h0]
  · simp [DownloadObj, Init, createContainerURL, h0, he]

/-- A read error after three bytes, and an end-of-stream after three bytes. -/
theorem DownloadObj_reports_read_error_witness :
    ((DownloadObj 2 scriptReader BlobMover.zero none
        (.ok ([⟨[1, 2], none⟩] ++ ⟨[3], some (GoError.other "reset")⟩ :: [⟨[4], none⟩]))
        "obj" sampleLoca [0, 0, 0, 0, 0]).map Prod.snd =
      some ⟨[1, 2, 3, 0, 0], 3, some (GoError.other "reset")⟩) ∧
    ((DownloadObj 2 scriptReader BlobMover.zero none
        (.ok ([⟨[1, 2], none⟩] ++ ⟨[3], some GoError.EOF⟩ :: []))
        "obj" sampleLoca [0, 0, 0, 0, 0]).map Prod.snd =
      some ⟨[1, 2, 3, 0, 0], 3, none⟩) :=
  ⟨DownloadObj_reports_read_error BlobMover.zero "obj" sampleLoca [0, 0, 0, 0, 0]
      [⟨[1, 2], none⟩] [3] (GoError.other "reset") [⟨[4], none⟩] 2 (by decide) (by decide)
      (by decide),
   DownloadObj_reports_read_error BlobMover.zero "obj" sampleLoca [0, 0, 0, 0, 0]
      [⟨[1, 2], none⟩] [3] GoError.EOF [] 2 (by decide) (by decide) (by decide)⟩

end blobmover
